import Mathlib

/-!
Shallow embedding of the velomania indoor-cycling workout controller.

Conventions of the embedding:
* Rust `u64`/`usize` durations become `ℕ`; `Duration::saturating_sub` is the
  truncated subtraction of `ℕ`.
* Rust `f64` power levels are modelled by exact rationals `ℚ`.
* Rust mutation `fn advance(&mut self) -> Option<PowerDuration>` becomes a
  pure function returning `Option (PowerDuration × σ)` (the emitted item
  together with the updated state).
* A Rust panic (`assert!`, `unwrap()`, `unimplemented!`, `unreachable!`,
  out-of-bounds indexing) is modelled by `Except.error`.
-/

namespace Velomania

/-- `PowerDuration` from `src/backend/src/zwo_workout_file.rs`:
how much power should be set for how long.  `duration` counts seconds. -/
structure PowerDuration where
  duration : ℕ
  power_level : ℚ
  deriving Repr, DecidableEq

/-- `Warmup` step record (duration in seconds, powers as FTP fractions). -/
structure Warmup where
  duration : ℕ
  power_low : ℚ
  power_high : ℚ
  deriving Repr, DecidableEq

/-- `Warmup::advance` from `zwo_workout_file.rs` lines 121-140: emit the
current `power_low` for one second, then move `power_low` one quantization
step `(power_high - power_low) / duration` upwards and decrement `duration`. -/
def Warmup.advance (w : Warmup) : Option (PowerDuration × Warmup) :=
  if w.duration = 0 then none
  else
    let power_level := w.power_low
    let span := w.power_high - w.power_low
    let step := span / (w.duration : ℚ)
    some (⟨1, power_level⟩,
      { w with duration := w.duration - 1, power_low := w.power_low + step })

/-- `Ramp` step record; identical fields and semantics to `Warmup`. -/
structure Ramp where
  duration : ℕ
  power_low : ℚ
  power_high : ℚ
  deriving Repr, DecidableEq

/-- `Ramp::advance` from `zwo_workout_file.rs` lines 150-168 (same body as
`Warmup::advance`). -/
def Ramp.advance (w : Ramp) : Option (PowerDuration × Ramp) :=
  if w.duration = 0 then none
  else
    let power_level := w.power_low
    let span := w.power_high - w.power_low
    let step := span / (w.duration : ℚ)
    some (⟨1, power_level⟩,
      { w with duration := w.duration - 1, power_low := w.power_low + step })

/-- `Cooldown` step record: `power_low` holds the (higher) starting value. -/
structure Cooldown where
  duration : ℕ
  power_low : ℚ
  power_high : ℚ
  deriving Repr, DecidableEq

/-- `Cooldown::advance` from `zwo_workout_file.rs` lines 179-199: emit the
current `power_low`, then move it one step `(power_low - power_high) /
duration` downwards. -/
def Cooldown.advance (w : Cooldown) : Option (PowerDuration × Cooldown) :=
  if w.duration = 0 then none
  else
    let power_level := w.power_low
    let span := w.power_low - w.power_high
    let step := span / (w.duration : ℚ)
    some (⟨1, power_level⟩,
      { w with duration := w.duration - 1, power_low := w.power_low - step })

/-- `SteadyState` step record. -/
structure SteadyState where
  duration : ℕ
  power : ℚ
  deriving Repr, DecidableEq

/-- `SteadyState::advance`: one item covering the whole duration. -/
def SteadyState.advance (w : SteadyState) : Option (PowerDuration × SteadyState) :=
  if w.duration = 0 then none
  else some (⟨w.duration, w.power⟩, { w with duration := 0 })

/-- `IntervalsT` step record; `current_interval` starts at 0 after parsing
(`serde(skip)` default). -/
structure IntervalsT where
  «repeat» : ℕ
  on_duration : ℕ
  off_duration : ℕ
  on_power : ℚ
  off_power : ℚ
  current_interval : ℕ
  deriving Repr, DecidableEq

/-- `IntervalsT::is_work_interval`: even `current_interval` means a work
(on) half-interval. -/
def IntervalsT.is_work_interval (w : IntervalsT) : Bool :=
  w.current_interval % 2 = 0

/-- `IntervalsT::advance` from `zwo_workout_file.rs` lines 244-267: while
`repeat > 0`, emit the on item on even `current_interval`, the off item on
odd `current_interval` (also decrementing `repeat`); always increment
`current_interval`. -/
def IntervalsT.advance (w : IntervalsT) : Option (PowerDuration × IntervalsT) :=
  if w.«repeat» = 0 then none
  else if w.is_work_interval then
    some (⟨w.on_duration, w.on_power⟩,
      { w with current_interval := w.current_interval + 1 })
  else
    some (⟨w.off_duration, w.off_power⟩,
      { w with «repeat» := w.«repeat» - 1,
               current_interval := w.current_interval + 1 })

/-- `FreeRide` step record. -/
structure FreeRide where
  duration : ℕ
  flat_road : ℚ
  deriving Repr, DecidableEq

/-- `FreeRide::advance`: one item of the whole duration at power level 0. -/
def FreeRide.advance (w : FreeRide) : Option (PowerDuration × FreeRide) :=
  if w.duration = 0 then none
  else some (⟨w.duration, 0⟩, { w with duration := 0 })

/-- The `WorkoutSteps` enum of `zwo_workout_file.rs`. -/
inductive WorkoutSteps where
  | warmup (w : Warmup)
  | ramp (w : Ramp)
  | steadyState (w : SteadyState)
  | cooldown (w : Cooldown)
  | intervalsT (w : IntervalsT)
  | freeRide (w : FreeRide)
  deriving Repr, DecidableEq

/-- `WorkoutSteps::advance`: dispatch to the variant's `advance`. -/
def WorkoutSteps.advance : WorkoutSteps → Option (PowerDuration × WorkoutSteps)
  | .warmup w => (w.advance).map fun p => (p.1, .warmup p.2)
  | .ramp w => (w.advance).map fun p => (p.1, .ramp p.2)
  | .steadyState w => (w.advance).map fun p => (p.1, .steadyState p.2)
  | .cooldown w => (w.advance).map fun p => (p.1, .cooldown p.2)
  | .intervalsT w => (w.advance).map fun p => (p.1, .intervalsT p.2)
  | .freeRide w => (w.advance).map fun p => (p.1, .freeRide p.2)

/-- `WorkoutSteps::skip` from `zwo_workout_file.rs` lines 85-97: zero the
duration of every variant except `IntervalsT`, which is left unchanged. -/
def WorkoutSteps.skip : WorkoutSteps → WorkoutSteps
  | .warmup w => .warmup { w with duration := 0 }
  | .ramp w => .ramp { w with duration := 0 }
  | .steadyState w => .steadyState { w with duration := 0 }
  | .cooldown w => .cooldown { w with duration := 0 }
  | .freeRide w => .freeRide { w with duration := 0 }
  | .intervalsT w => .intervalsT w

/-- `WorkoutSteps::get_step_duration` (seconds). -/
def WorkoutSteps.get_step_duration : WorkoutSteps → ℕ
  | .warmup w => w.duration
  | .ramp w => w.duration
  | .steadyState w => w.duration
  | .cooldown w => w.duration
  | .intervalsT w => w.«repeat» * (w.off_duration + w.on_duration)
  | .freeRide w => w.duration

/-- Iterate a state-passing `advance` up to `fuel` times, collecting the
emitted items; stops early when `advance` returns `none`.  This models
"repeatedly calling `advance()`" on a step. -/
def runAdv {σ α : Type} (f : σ → Option (α × σ)) : ℕ → σ → List α
  | 0, _ => []
  | fuel + 1, s =>
    match f s with
    | none => []
    | some (a, s') => a :: runAdv f fuel s'

/-! ### Workout state tracker (`src/backend/src/workout_state.rs`)

`Duration` and `Instant` values are modelled as natural numbers of abstract
time units; `Duration::saturating_sub` is `ℕ` truncated subtraction. -/

/-- `StepState` from `workout_state.rs`. -/
structure StepState where
  duration : ℕ
  step : WorkoutSteps
  elapsed : ℕ
  started : ℕ
  deriving Repr, DecidableEq

/-- `IntervalState` from `workout_state.rs`. -/
structure IntervalState where
  repetition : ℕ
  is_work_interval : Bool
  elapsed : ℕ
  duration : ℕ
  started : ℕ
  deriving Repr, DecidableEq

/-- `WorkoutState` from `workout_state.rs` lines 30-47. -/
structure WorkoutState where
  total_steps : ℕ
  current_step_number : ℕ
  total_workout_duration : ℕ
  next_step : Option WorkoutSteps
  current_power_set : ℤ
  ftp_base : ℚ
  current_step : StepState
  current_interval : Option IntervalState
  workout_elapsed : ℕ
  workout_started : ℕ
  deriving Repr, DecidableEq

/-- `WorkoutState::handle_skip_step` from `workout_state.rs` lines 137-148:
compute the remaining time of the current half-interval (when interval info
is present) or of the current step, with saturating subtraction, and
saturating-subtract it from `total_workout_duration`. -/
def WorkoutState.handle_skip_step (s : WorkoutState) : WorkoutState :=
  let remaining_time :=
    match s.current_interval with
    | some interval => interval.duration - interval.elapsed
    | none => s.current_step.duration - s.current_step.elapsed
  { s with total_workout_duration := s.total_workout_duration - remaining_time }

/-! ### Watt derivation (`src/src/common.rs`, `src/src/zwo_workout.rs`) -/

/-- Rust `f64::round`: round half away from zero, modelled on `ℚ`. -/
def rustRound (q : ℚ) : ℤ :=
  if 0 ≤ q then ⌊q + 1 / 2⌋ else ⌈q - 1 / 2⌉

/-- Rust's saturating numeric cast `as i16` on an integer value. -/
def castI16 (z : ℤ) : ℤ :=
  if z < -32768 then -32768 else if z > 32767 then 32767 else z

/-- `get_power` from `src/src/common.rs` lines 34-36 (the body of
`ZwoWorkout::get_power` is identical): `(ftp_base * power_level).round() as
i16`. -/
def get_power (ftp_base power_level : ℚ) : ℤ :=
  castI16 (rustRound (ftp_base * power_level))

/-- Written from the spec's words, for comparison with `get_power`:
"A derived watt value is `round(ftp_base · power_level)` clamped to `i16`",
i.e. the rounded product saturated into `[-32768, 32767]`. -/
def wattsSpec (ftp_base power_level : ℚ) : ℤ :=
  max (-32768) (min 32767 (rustRound (ftp_base * power_level)))

/-! ### Scalar decoder (`src/backend/src/scalar_converter.rs`) -/

/-- `ScalarType` builder: a raw value is decoded as
`raw * multiplier * 10^d * 2^b`. -/
structure ScalarType where
  multiplier : ℤ
  base_10 : ℚ
  base_2 : ℚ
  deriving Repr, DecidableEq

/-- `ScalarType::new`: `M = 1`, `d = 0`, `b = 0`. -/
def ScalarType.new : ScalarType := ⟨1, 1, 1⟩

/-- `ScalarType::with_multiplier`. -/
def ScalarType.with_multiplier (s : ScalarType) (m : ℤ) : ScalarType :=
  { s with multiplier := m }

/-- `ScalarType::with_dec_exp`: sets `base_10 := 10^d`. -/
def ScalarType.with_dec_exp (s : ScalarType) (d : ℤ) : ScalarType :=
  { s with base_10 := (10 : ℚ) ^ d }

/-- `ScalarType::with_bin_exp`: sets `base_2 := 2^b`. -/
def ScalarType.with_bin_exp (s : ScalarType) (b : ℤ) : ScalarType :=
  { s with base_2 := (2 : ℚ) ^ b }

/-- `ScalarType::to_scalar`. -/
def ScalarType.to_scalar (s : ScalarType) (raw : ℚ) : ℚ :=
  raw * (s.multiplier : ℚ) * s.base_10 * s.base_2

/-! ### Fitness Machine driver (`src/src/indoor_bike_client.rs`,
`src/src/indoor_bike_data_defs.rs`)

Byte buffers are `List ℕ` with every entry below 256.  Reads return `none`
where the Rust slice indexing would panic. -/

/-- `LittleEndian::read_u16(&data[c..])`; `none` models the out-of-bounds
panic. -/
def readU16le (data : List ℕ) (c : ℕ) : Option ℕ :=
  if c + 2 ≤ data.length then some (data.getD c 0 + 256 * data.getD (c + 1) 0)
  else none

/-- `LittleEndian::read_u24(&data[c..])`. -/
def readU24le (data : List ℕ) (c : ℕ) : Option ℕ :=
  if c + 3 ≤ data.length then
    some (data.getD c 0 + 256 * data.getD (c + 1) 0 + 65536 * data.getD (c + 2) 0)
  else none

/-- `LittleEndian::read_i16(&data[c..])`: the u16 value reinterpreted as
two's-complement. -/
def readI16le (data : List ℕ) (c : ℕ) : Option ℤ :=
  (readU16le data c).map fun v =>
    if v < 32768 then (v : ℤ) else (v : ℤ) - 65536

/-- Single byte `data[c]`. -/
def readU8 (data : List ℕ) (c : ℕ) : Option ℕ :=
  if c < data.length then some (data.getD c 0) else none

/-- An optional read where `none` is a Rust panic carrying `msg`. -/
def orPanic {α : Type} (o : Option α) (msg : String) : Except String α :=
  match o with
  | some a => .ok a
  | none => .error msg

/-- `LittleEndian::write_i16` into two bytes (two's complement, low byte
first). -/
def writeI16le (p : ℤ) : List ℕ :=
  let u := (p % 65536).toNat
  [u % 256, u / 256]

/-- `Range` from `indoor_bike_data_defs.rs`, at the power-range instance
`Range<i16, u16>`. -/
structure Range where
  min : ℤ
  max : ℤ
  step : ℕ
  deriving Repr, DecidableEq

/-- `Range::in_range` from `indoor_bike_data_defs.rs` lines 185-192:
`value >= self.min && value <= self.max`. -/
def Range.in_range (r : Range) (value : ℤ) : Bool :=
  decide (r.min ≤ value) && decide (value ≤ r.max)

/-- `ControlPointOpCode::SetTargetPower` discriminant. -/
def setTargetPowerOpCode : ℕ := 0x5

/-- `IndoorBikeFitnessMachine::set_power` from `indoor_bike_client.rs`
lines 222-245, with the `power_range` field passed explicitly.  The `.ok`
result carries the 3-byte control-point frame handed to the peripheral
write; `.error` is the early return before any write. -/
def set_power (power_range : Range) (power : ℤ) : Except String (List ℕ) :=
  if ¬ power_range.in_range power then
    .error "power outside valid range"
  else
    .ok (setTargetPowerOpCode :: writeI16le power)

/-- `BikeData` from `indoor_bike_data_defs.rs`: decoded fields are present
according to the packet's flag bits. -/
structure BikeData where
  inst_speed : Option ℚ := none
  avg_speed : Option ℚ := none
  inst_cadence : Option ℚ := none
  avg_cadence : Option ℚ := none
  tot_distance : Option ℕ := none
  resistance_lvl : Option ℚ := none
  inst_power : Option ℤ := none
  avg_power : Option ℤ := none
  elapsed_time : Option ℕ := none
  remaining_time : Option ℕ := none
  deriving Repr, DecidableEq

/-- `BikeData::default()`: all fields absent. -/
def BikeData.default : BikeData := {}

/-- `BIKE_DATA_FLAGS_LEN`. -/
def BIKE_DATA_FLAGS_LEN : ℕ := 13

/-- One iteration of the flag loop of `handle_bike_data_notification`
(`indoor_bike_client.rs` lines 442-518) at bit `i`: when flag bit `i` is
set, read that bit's field at the cursor and advance the cursor, else leave
the accumulator unchanged.  Bits 8, 9, 10 are the `unimplemented!` panics;
bit 0 in the loop would be the `unreachable!` arm. -/
def bikeDataStep (raw_data : List ℕ) (flags : ℕ) (acc : BikeData × ℕ) (i : ℕ) :
    Except String (BikeData × ℕ) :=
  let (bike_data, cursor) := acc
  let field_present := flags &&& (1 <<< i)
  if field_present = 0 then .ok acc
  else
    match i with
    | 1 => do
      let raw ← orPanic (readU16le raw_data cursor) "index out of bounds"
      let conv := ScalarType.new.with_multiplier 1 |>.with_dec_exp (-2)
      .ok ({ bike_data with avg_speed := some (conv.to_scalar raw) }, cursor + 2)
    | 2 => do
      let raw ← orPanic (readU16le raw_data cursor) "index out of bounds"
      let conv := ScalarType.new.with_multiplier 1 |>.with_dec_exp (-1)
      .ok ({ bike_data with inst_cadence := some (conv.to_scalar raw) }, cursor + 2)
    | 3 => do
      let raw ← orPanic (readU16le raw_data cursor) "index out of bounds"
      let conv := ScalarType.new.with_multiplier 1 |>.with_dec_exp (-1)
      .ok ({ bike_data with avg_cadence := some (conv.to_scalar raw) }, cursor + 2)
    | 4 => do
      let raw ← orPanic (readU24le raw_data cursor) "index out of bounds"
      .ok ({ bike_data with tot_distance := some raw }, cursor + 3)
    | 5 => do
      let raw ← orPanic (readU8 raw_data cursor) "index out of bounds"
      let conv := ScalarType.new.with_multiplier 1 |>.with_dec_exp 1
      .ok ({ bike_data with resistance_lvl := some (conv.to_scalar raw) }, cursor + 1)
    | 6 => do
      let raw ← orPanic (readI16le raw_data cursor) "index out of bounds"
      .ok ({ bike_data with inst_power := some raw }, cursor + 2)
    | 7 => do
      let raw ← orPanic (readI16le raw_data cursor) "index out of bounds"
      .ok ({ bike_data with avg_power := some raw }, cursor + 2)
    | 8 => .error "parsing ExpendedEnergy data not implemented"
    | 9 => .error "parsing HR data not implemented"
    | 10 => .error "parsing MetabolicEquivalent data not implemented"
    | 11 => do
      let raw ← orPanic (readU16le raw_data cursor) "index out of bounds"
      .ok ({ bike_data with elapsed_time := some raw }, cursor + 2)
    | 12 => do
      let raw ← orPanic (readU16le raw_data cursor) "index out of bounds"
      .ok ({ bike_data with remaining_time := some raw }, cursor + 2)
    | _ => .error "unreachable"

/-- `handle_bike_data_notification` from `indoor_bike_client.rs` lines
416-522: read the 16-bit flags field; if bit 0 is set the packet is an
unsupported continuation (`unimplemented!`); otherwise read `inst_speed`
(u16 x 0.01) right after the flags, then run the flag loop over bits 1..12.
Returns the decoded `BikeData` together with the final cursor. -/
def handle_bike_data_notification (raw_data : List ℕ) :
    Except String (BikeData × ℕ) := do
  let flags ← orPanic (readU16le raw_data 0) "index out of bounds"
  if flags &&& 1 = 1 then
    .error "More Data scenario is not yet implemented"
  else
    let raw ← orPanic (readU16le raw_data 2) "index out of bounds"
    let conv := ScalarType.new.with_multiplier 1 |>.with_dec_exp (-2)
    let bike_data : BikeData := { BikeData.default with inst_speed := some (conv.to_scalar raw) }
    (List.range' 1 12).foldlM (bikeDataStep raw_data flags) (bike_data, 4)

/-- `ControlPointNotificationData`, with the two enums carried as their
numeric discriminants. -/
structure ControlPointNotificationData where
  request_op_code : ℕ
  request_status : ℕ
  deriving Repr, DecidableEq

/-- Discriminants of `ControlPointOpCode` (`indoor_bike_data_defs.rs`):
`from_u8` succeeds exactly on these. -/
def controlPointOpCodes : List ℕ := [0x0, 0x1, 0x4, 0x5, 0x7, 0x8, 0x11, 0x12, 0x13]

/-- Discriminants of `ControlPointResult`: `from_u8` succeeds exactly on
0x0 .. 0x5. -/
def controlPointResults : List ℕ := [0x0, 0x1, 0x2, 0x3, 0x4, 0x5]

/-- Discriminants of `MachineStatusOpCode`: 0x0 .. 0x14 and 0xFF. -/
def machineStatusOpCodes : List ℕ :=
  (List.range 0x15) ++ [0xFF]

/-- `handle_control_point_notification` from `indoor_bike_client.rs` lines
394-406: `assert_eq!(raw_data[0], 0x80)`, then `unwrap()` the opcode and
status parses; every failure is a panic. -/
def handle_control_point_notification (raw_data : List ℕ) :
    Except String ControlPointNotificationData := do
  let op_code ← orPanic (readU8 raw_data 0) "index out of bounds"
  if op_code ≠ 0x80 then .error "assertion failed: op_code == 0x80"
  else
    let b1 ← orPanic (readU8 raw_data 1) "index out of bounds"
    let b2 ← orPanic (readU8 raw_data 2) "index out of bounds"
    if b1 ∈ controlPointOpCodes then
      if b2 ∈ controlPointResults then
        .ok ⟨b1, b2⟩
      else .error "unwrap on None: unknown ControlPointResult"
    else .error "unwrap on None: unknown ControlPointOpCode"

/-- `handle_machine_status_notification` from `indoor_bike_client.rs` lines
408-413: `unwrap()` the opcode parse (panic on an unknown opcode); the
parsed opcode is only logged. -/
def handle_machine_status_notification (raw_data : List ℕ) :
    Except String ℕ := do
  let op_code ← orPanic (readU8 raw_data 0) "index out of bounds"
  if op_code ∈ machineStatusOpCodes then .ok op_code
  else .error "unwrap on None: unknown MachineStatusOpCode"

/-- The characteristic UUID of a notification, abstracted to the four
constants the pump dispatches on plus an unknown id. -/
inductive CharUuid where
  | machineStatus
  | indoorBikeData
  | trainingStatus
  | controlPoint
  | unknown (id : ℕ)
  deriving Repr, DecidableEq

/-- `ValueNotification`: uuid plus raw payload. -/
structure ValueNotification where
  uuid : CharUuid
  value : List ℕ
  deriving Repr, DecidableEq

/-- A message published on one of the pump's broadcast channels. -/
inductive PumpOutput where
  | bikeData (d : BikeData)
  | controlPointResponse (d : ControlPointNotificationData)
  deriving Repr, DecidableEq

/-- `handle_notifications` from `indoor_bike_client.rs` lines 352-392: the
notification pump.  Machine-status payloads are parsed (parse panics
propagate) but not broadcast; bike-data and control-point payloads are
parsed and broadcast; training-status payloads are only traced; an unknown
uuid is logged as a warning and skipped.  A panic inside an iteration kills
the task, so the fold stops with `.error` and later notifications are never
processed. -/
def handle_notifications : List ValueNotification → Except String (List PumpOutput)
  | [] => .ok []
  | n :: rest =>
    match n.uuid with
    | .machineStatus => do
      let _ ← handle_machine_status_notification n.value
      handle_notifications rest
    | .indoorBikeData => do
      let parsed ← handle_bike_data_notification n.value
      let outs ← handle_notifications rest
      .ok (.bikeData parsed.1 :: outs)
    | .trainingStatus => handle_notifications rest
    | .controlPoint => do
      let cp ← handle_control_point_notification n.value
      let outs ← handle_notifications rest
      .ok (.controlPointResponse cp :: outs)
    | .unknown _ => handle_notifications rest

/-! ### Workout engine (`src/src/zwo_workout.rs`)

The engine is a `Stream` driven by a spawned sleep task.  `pending :
Option<JoinHandle<()>>` is modelled by a `Bool` (is a timer task armed);
whether the armed timer has already fired when `poll_next` runs is an input
of the poll function.  Panics (`expect`) are `Except.error`. -/

/-- `UserCommands` from `cli.rs`. -/
inductive UserCommands where
  | startWorkout
  | setResistance (resistance : ℕ)
  | setTargetPower (power : ℤ)
  | exitCmd
  deriving Repr, DecidableEq

/-- `std::task::Poll`. -/
inductive Poll (α : Type) where
  | ready (a : α)
  | pending
  deriving Repr, DecidableEq

namespace Zwo

/-- The engine-side `WorkoutState` from `src/src/zwo_workout.rs` lines
28-41. -/
structure WorkoutState where
  total_steps : ℕ
  total_workout_duration : ℕ
  current_step_duration : ℕ
  current_step_idx : ℕ
  current_step : WorkoutSteps
  next_step : Option WorkoutSteps
  current_power_set : ℤ
  ftp_base : ℚ
  deriving Repr, DecidableEq

/-- `calculate_step_duration` from `src/src/zwo_workout.rs` lines 162-176
(seconds). -/
def calculate_step_duration : WorkoutSteps → ℕ
  | .warmup x => x.duration
  | .ramp x => x.duration
  | .steadyState x => x.duration
  | .cooldown x => x.duration
  | .intervalsT x => (x.on_duration + x.off_duration) * x.«repeat»
  | .freeRide x => x.duration

/-- `ZwoWorkout`: remaining (not yet started) steps of the parsed file, the
pending-timer flag and the engine state. -/
structure ZwoWorkout where
  workouts : List WorkoutSteps
  pending : Bool
  workout_state : WorkoutState
  deriving Repr, DecidableEq

/-- `ZwoWorkout::get_power` from `src/src/zwo_workout.rs` lines 156-158:
`(self.workout_state.ftp_base * power_level).round() as i16`. -/
def ZwoWorkout.get_power (z : ZwoWorkout) (power_level : ℚ) : ℤ :=
  Velomania.get_power z.workout_state.ftp_base power_level

/-- `ZwoWorkout::pause` from `src/src/zwo_workout.rs` lines 107-113: take
the pending timer handle and abort it, leaving `pending` empty. -/
def ZwoWorkout.pause (z : ZwoWorkout) : ZwoWorkout :=
  { z with pending := false }

/-- `ZwoWorkout::set_current_step` from `src/src/zwo_workout.rs` lines
148-154 (called after the queue was popped). -/
def ZwoWorkout.set_current_step (z : ZwoWorkout) (next : WorkoutSteps) : ZwoWorkout :=
  { z with workout_state :=
    { z.workout_state with
        current_step := next
        current_step_duration := calculate_step_duration next
        current_step_idx := z.workout_state.current_step_idx + 1
        next_step := z.workouts.head? } }

/-- `ZwoWorkout::advance_workout` from `src/src/zwo_workout.rs` lines
115-145: advance the current step; when it is exhausted pop the next step
from the queue, make it current and advance it (`expect` panics if that
fresh step yields nothing); update `current_power_set` on emission. -/
def ZwoWorkout.advance_workout (z : ZwoWorkout) :
    Except String (Option (PowerDuration × ZwoWorkout)) := do
  let next_pd ←
    match z.workout_state.current_step.advance with
    | some (pd, step') =>
      Except.ok (some (pd,
        { z with workout_state := { z.workout_state with current_step := step' } }))
    | none =>
      match z.workouts with
      | next :: rest =>
        let z' := ZwoWorkout.set_current_step { z with workouts := rest } next
        match z'.workout_state.current_step.advance with
        | some (pd, step') =>
          Except.ok (some (pd,
            { z' with workout_state := { z'.workout_state with current_step := step' } }))
        | none => Except.error "Cannot advance fresh workout step"
      | [] => Except.ok none
  match next_pd with
  | some (pd, z') =>
    .ok (some (pd,
      { z' with workout_state :=
        { z'.workout_state with
            current_power_set := z'.get_power pd.power_level } }))
  | none => .ok none

/-- `<ZwoWorkout as Stream>::poll_next` from `src/src/zwo_workout.rs` lines
214-267.  `timer_fired` tells whether the armed sleep task has completed at
the time of the poll.  `self.pending.take()` empties the slot in every
branch; `setup_timer` arms a fresh timer when a setpoint is emitted. -/
def ZwoWorkout.poll_next (z : ZwoWorkout) (timer_fired : Bool) :
    Except String (Poll (Option UserCommands) × ZwoWorkout) :=
  if z.pending then
    if timer_fired then do
      match ← ZwoWorkout.advance_workout { z with pending := false } with
      | some (pd, z') =>
        .ok (.ready (some (.setTargetPower (z'.get_power pd.power_level))),
          { z' with pending := true })
      | none => .ok (.ready none, { z with pending := false })
    else
      .ok (.pending, { z with pending := false })
  else do
    match ← ZwoWorkout.advance_workout z with
    | some (pd, z') =>
      .ok (.ready (some (.setTargetPower (z'.get_power pd.power_level))),
        { z' with pending := true })
    | none => .ok (.ready none, z)

end Zwo

/-- The emission sequence §3 of the spec describes for a ramp-style step
(`Warmup`/`Ramp`/`Cooldown`) with `duration_s = n`: `n` one-second items
whose levels start at the starting level and move in increments of
`(high - low) / n`. -/
def rampEmissions (n : ℕ) (L H : ℚ) : List PowerDuration :=
  (List.range n).map fun (k : ℕ) => ⟨1, L + (k : ℚ) * ((H - L) / (n : ℚ))⟩

/-- Field length in bytes for the supported flag bits of an
indoor-bike-data packet (the spec's table; bits 8, 9, 10 have no length -
they are `unimplemented!` in the code). -/
def bikeFieldLen : ℕ → ℕ
  | 1 => 2
  | 2 => 2
  | 3 => 2
  | 4 => 3
  | 5 => 1
  | 6 => 2
  | 7 => 2
  | 11 => 2
  | 12 => 2
  | _ => 0

/-- The flag bits among 1..12 whose fields the decoder implements. -/
def supportedBikeBits : List ℕ := [1, 2, 3, 4, 5, 6, 7, 11, 12]

/-- Expected packet length per the spec's invariant 7 for a packet with bit
0 clear: 2 flag bytes + 2 `inst_speed` bytes + the table sizes of the set
bits. -/
def bikePacketLen (flags : ℕ) : ℕ :=
  2 + 2 + ((List.range' 1 12).map fun i =>
    if flags &&& (1 <<< i) ≠ 0 then bikeFieldLen i else 0).sum

/-- The synthesized scenario-S6 packet: `flags = 0x0046` (bits 1, 2, 6 set,
bit 0 clear), `inst_speed = 2500`, `avg_speed = 2400`, `inst_cadence =
900`, `inst_power = 250`, all little-endian. -/
def s6Packet : List ℕ := [0x46, 0x00, 0xC4, 0x09, 0x60, 0x09, 0x84, 0x03, 0xFA, 0x00]

/-- The remaining time subtracted by `handle_skip_step` (the claim's
`Δ`, with `Duration`'s saturating subtraction). -/
def skip_remaining (s : WorkoutState) : ℕ :=
  match s.current_interval with
  | some interval => interval.duration - interval.elapsed
  | none => s.current_step.duration - s.current_step.elapsed

/-- A concrete workout state mid-step: 10 s step, 0 s elapsed, but only 5
time units left in `total_workout_duration`. -/
def skipDemoState : WorkoutState where
  total_steps := 1
  current_step_number := 1
  total_workout_duration := 5
  next_step := none
  current_power_set := 0
  ftp_base := 200
  current_step := ⟨10, .steadyState ⟨10, 1/2⟩, 0, 0⟩
  current_interval := none
  workout_elapsed := 0
  workout_started := 0

/-- The same state as `skipDemoState` but 3 s into the step and with a
large enough remaining total. -/
def skipDemoState2 : WorkoutState :=
  { skipDemoState with
      total_workout_duration := 100
      current_step := ⟨10, .steadyState ⟨10, 1/2⟩, 3, 0⟩ }

/-- A concrete engine mid-workout: a fresh 10 s `SteadyState` at level 1/2
with `ftp_base = 200`, one armed (not yet fired) timer, no further steps. -/
def pauseDemoZwo : Zwo.ZwoWorkout where
  workouts := []
  pending := true
  workout_state :=
    { total_steps := 1
      total_workout_duration := 10
      current_step_duration := 10
      current_step_idx := 1
      current_step := .steadyState ⟨10, 1/2⟩
      next_step := none
      current_power_set := 0
      ftp_base := 200 }

/-- A control-point indication whose leading opcode is `0x00`, not the
expected `0x80`. -/
def badControlPointNotification : ValueNotification :=
  ⟨.controlPoint, [0x00, 0x05, 0x01]⟩

/-- A well-formed control-point indication: `0x80`, request opcode
`SetTargetPower = 0x05`, status `Success = 0x01`. -/
def goodControlPointNotification : ValueNotification :=
  ⟨.controlPoint, [0x80, 0x05, 0x01]⟩

/-! ## Theorems -/

theorem exceptBind_ok {ε α β : Type} (a : α) (f : α → Except ε β) :
    (Except.ok a >>= f : Except ε β) = f a := rfl

theorem bikeDataStep_ok (raw_data : List ℕ) (flags : ℕ) (bd : BikeData) (c i : ℕ)
    (hi : i ∈ supportedBikeBits)
    (hbit : flags &&& (1 <<< i) ≠ 0)
    (hlen : c + bikeFieldLen i ≤ raw_data.length) :
    ∃ bd', bikeDataStep raw_data flags (bd, c) i = .ok (bd', c + bikeFieldLen i) := by
  fin_cases hi
  all_goals
    simp only [bikeFieldLen] at hlen ⊢
    simp at hbit
    exact ⟨_, by
      simp [bikeDataStep, hbit, readU16le, readU24le, readU8, readI16le, orPanic,
        exceptBind_ok, hlen, (show c < raw_data.length by omega)]
      rfl⟩

theorem bikeDataFold_ok (raw_data : List ℕ) (flags : ℕ) (L : List ℕ) (bd : BikeData) (c : ℕ)
    (hsupp : ∀ i ∈ L, flags &&& (1 <<< i) ≠ 0 → i ∈ supportedBikeBits)
    (hlen : c + ((L.map fun i =>
        if flags &&& (1 <<< i) ≠ 0 then bikeFieldLen i else 0).sum) ≤ raw_data.length) :
    ∃ bd', L.foldlM (bikeDataStep raw_data flags) (bd, c) =
      .ok (bd', c + ((L.map fun i =>
        if flags &&& (1 <<< i) ≠ 0 then bikeFieldLen i else 0).sum)) := by
  induction L generalizing bd c with
  | nil => exact ⟨bd, rfl⟩
  | cons i L ih =>
    simp only [List.map_cons, List.sum_cons] at hlen ⊢
    by_cases hbit : flags &&& (1 <<< i) = 0
    · have hstep : bikeDataStep raw_data flags (bd, c) i = .ok (bd, c) := by
        simp [bikeDataStep, hbit]
      have hcond : ¬(flags &&& (1 <<< i) ≠ 0) := by simpa using hbit
      simp only [if_neg hcond] at hlen ⊢
      obtain ⟨bd', hb⟩ := ih bd c (fun j hj => hsupp j (List.mem_cons_of_mem i hj))
        (by omega)
      refine ⟨bd', ?_⟩
      rw [List.foldlM_cons, hstep]
      rw [exceptBind_ok]
      simpa using hb
    · have hi := hsupp i (List.mem_cons_self i L) hbit
      simp only [if_pos hbit] at hlen ⊢
      obtain ⟨bd1, hstep⟩ := bikeDataStep_ok raw_data flags bd c i hi hbit (by omega)
      obtain ⟨bd', hb⟩ := ih bd1 (c + bikeFieldLen i)
        (fun j hj => hsupp j (List.mem_cons_of_mem i hj)) (by omega)
      refine ⟨bd', ?_⟩
      rw [List.foldlM_cons, hstep]
      rw [exceptBind_ok]
      have harith : c + bikeFieldLen i +
          (List.map (fun i => if flags &&& (1 <<< i) ≠ 0 then bikeFieldLen i else 0) L).sum =
          c + (bikeFieldLen i +
          (List.map (fun i => if flags &&& (1 <<< i) ≠ 0 then bikeFieldLen i else 0) L).sum) := by
        omega
      rw [← harith]
      exact hb

theorem ramp_step_algebra (n : ℕ) (hn : n ≠ 0) (k : ℕ) (L H : ℚ) :
    (L + (H - L) / ((n : ℚ) + 1)) +
      (k : ℚ) * ((H - (L + (H - L) / ((n : ℚ) + 1))) / (n : ℚ)) =
    L + ((k : ℚ) + 1) * ((H - L) / ((n : ℚ) + 1)) := by
  have hn' : (n : ℚ) ≠ 0 := Nat.cast_ne_zero.mpr hn
  have hn1 : (n : ℚ) + 1 ≠ 0 := by positivity
  field_simp
  ring

theorem warmup_runAdv (n : ℕ) (L H : ℚ) (fuel : ℕ) (h : n ≤ fuel) :
    runAdv Warmup.advance fuel ⟨n, L, H⟩ = rampEmissions n L H := by
  induction n generalizing L fuel with
  | zero =>
    cases fuel with
    | zero => simp [runAdv, rampEmissions]
    | succ m => simp [runAdv, Warmup.advance, rampEmissions]
  | succ n ih =>
    cases fuel with
    | zero => omega
    | succ m =>
      have hm : n ≤ m := Nat.succ_le_succ_iff.mp h
      have hcast : ((n + 1 : ℕ) : ℚ) = (n : ℚ) + 1 := by push_cast; ring
      have hadv : Warmup.advance ⟨n + 1, L, H⟩ =
          some (⟨1, L⟩, ⟨n, L + (H - L) / ((n : ℚ) + 1), H⟩) := by
        simp [Warmup.advance, hcast]
      rw [show runAdv Warmup.advance (m + 1) ⟨n + 1, L, H⟩ =
          ⟨1, L⟩ :: runAdv Warmup.advance m ⟨n, L + (H - L) / ((n : ℚ) + 1), H⟩ by
        simp [runAdv, hadv]]
      rw [ih (L + (H - L) / ((n : ℚ) + 1)) m hm]
      unfold rampEmissions
      rw [List.range_succ_eq_map, List.map_cons, List.map_map]
      refine congrArg₂ List.cons ?_ ?_
      · norm_num
      · rcases Nat.eq_zero_or_pos n with hn | hn
        · subst hn; simp
        · apply List.map_congr_left
          intro k _
          simp only [Function.comp]
          congr 1
          push_cast
          exact ramp_step_algebra n hn.ne' k L H

theorem ramp_runAdv (n : ℕ) (L H : ℚ) (fuel : ℕ) (h : n ≤ fuel) :
    runAdv Ramp.advance fuel ⟨n, L, H⟩ = rampEmissions n L H := by
  induction n generalizing L fuel with
  | zero =>
    cases fuel with
    | zero => simp [runAdv, rampEmissions]
    | succ m => simp [runAdv, Ramp.advance, rampEmissions]
  | succ n ih =>
    cases fuel with
    | zero => omega
    | succ m =>
      have hm : n ≤ m := Nat.succ_le_succ_iff.mp h
      have hcast : ((n + 1 : ℕ) : ℚ) = (n : ℚ) + 1 := by push_cast; ring
      have hadv : Ramp.advance ⟨n + 1, L, H⟩ =
          some (⟨1, L⟩, ⟨n, L + (H - L) / ((n : ℚ) + 1), H⟩) := by
        simp [Ramp.advance, hcast]
      rw [show runAdv Ramp.advance (m + 1) ⟨n + 1, L, H⟩ =
          ⟨1, L⟩ :: runAdv Ramp.advance m ⟨n, L + (H - L) / ((n : ℚ) + 1), H⟩ by
        simp [runAdv, hadv]]
      rw [ih (L + (H - L) / ((n : ℚ) + 1)) m hm]
      unfold rampEmissions
      rw [List.range_succ_eq_map, List.map_cons, List.map_map]
      refine congrArg₂ List.cons ?_ ?_
      · norm_num
      · rcases Nat.eq_zero_or_pos n with hn | hn
        · subst hn; simp
        · apply List.map_congr_left
          intro k _
          simp only [Function.comp]
          congr 1
          push_cast
          exact ramp_step_algebra n hn.ne' k L H

theorem cooldown_runAdv (n : ℕ) (L H : ℚ) (fuel : ℕ) (h : n ≤ fuel) :
    runAdv Cooldown.advance fuel ⟨n, L, H⟩ = rampEmissions n L H := by
  induction n generalizing L fuel with
  | zero =>
    cases fuel with
    | zero => simp [runAdv, rampEmissions]
    | succ m => simp [runAdv, Cooldown.advance, rampEmissions]
  | succ n ih =>
    cases fuel with
    | zero => omega
    | succ m =>
      have hm : n ≤ m := Nat.succ_le_succ_iff.mp h
      have hcast : ((n + 1 : ℕ) : ℚ) = (n : ℚ) + 1 := by push_cast; ring
      have hadv : Cooldown.advance ⟨n + 1, L, H⟩ =
          some (⟨1, L⟩, ⟨n, L + (H - L) / ((n : ℚ) + 1), H⟩) := by
        simp [Cooldown.advance, hcast]
        ring
      rw [show runAdv Cooldown.advance (m + 1) ⟨n + 1, L, H⟩ =
          ⟨1, L⟩ :: runAdv Cooldown.advance m ⟨n, L + (H - L) / ((n : ℚ) + 1), H⟩ by
        simp [runAdv, hadv]]
      rw [ih (L + (H - L) / ((n : ℚ) + 1)) m hm]
      unfold rampEmissions
      rw [List.range_succ_eq_map, List.map_cons, List.map_map]
      refine congrArg₂ List.cons ?_ ?_
      · norm_num
      · rcases Nat.eq_zero_or_pos n with hn | hn
        · subst hn; simp
        · apply List.map_congr_left
          intro k _
          simp only [Function.comp]
          congr 1
          push_cast
          exact ramp_step_algebra n hn.ne' k L H

theorem rampEmissions_length (n : ℕ) (L H : ℚ) : (rampEmissions n L H).length = n := by
  simp [rampEmissions]

theorem rampEmissions_duration (n : ℕ) (L H : ℚ) :
    ∀ pd ∈ rampEmissions n L H, pd.duration = 1 := by
  intro pd hpd
  simp only [rampEmissions, List.mem_map] at hpd
  obtain ⟨k, -, rfl⟩ := hpd
  rfl

theorem rampEmissions_getLast (n : ℕ) (L H : ℚ) (hn : 0 < n) :
    (rampEmissions n L H).getLast? = some ⟨1, H - (H - L) / (n : ℚ)⟩ := by
  obtain ⟨m, rfl⟩ := Nat.exists_eq_add_of_lt hn
  simp only [rampEmissions, List.range_succ, List.map_append, List.map_cons, List.map_nil]
  rw [List.getLast?_concat]
  have hm1 : ((0 + m + 1 : ℕ) : ℚ) ≠ 0 := by positivity
  congr 1
  congr 1
  push_cast at hm1 ⊢
  field_simp
  ring

theorem rampEmissions_ne_high (n : ℕ) (L H : ℚ) (hLH : L ≠ H) :
    ∀ pd ∈ rampEmissions n L H, pd.power_level ≠ H := by
  intro pd hpd
  simp only [rampEmissions, List.mem_map, List.mem_range] at hpd
  obtain ⟨k, hk, rfl⟩ := hpd
  simp only []
  intro heq
  have hn : (n : ℚ) ≠ 0 := by
    rcases Nat.eq_zero_or_pos n with h0 | h0
    · omega
    · exact_mod_cast h0.ne'
  have hHL : H - L ≠ 0 := sub_ne_zero.mpr (Ne.symm hLH)
  have hkn : (k : ℚ) = (n : ℚ) := by
    have h1 : (k : ℚ) * ((H - L) / (n : ℚ)) = H - L := by linarith
    field_simp at h1
    have h2 : (k : ℚ) * (H - L) = (n : ℚ) * (H - L) := by linarith
    exact mul_right_cancel₀ hHL h2
  have : k = n := by exact_mod_cast hkn
  omega

/-- C1 (counterexample): the claim's "never high itself" fails in the
degenerate case `low = high`.  `Warmup{duration := 1, low := 100,
high := 100}` emits exactly one item, and its level `100` *is* `high`
(indeed `high - step = high` because the step is `0`). -/
theorem claim_C1_counterexample :
    runAdv Warmup.advance 1 (⟨1, 100, 100⟩ : Warmup) = [⟨1, 100⟩] ∧
    ¬ (∀ pd ∈ runAdv Warmup.advance 1 (⟨1, 100, 100⟩ : Warmup),
        pd.power_level ≠ (⟨1, 100, 100⟩ : Warmup).power_high) := by
  have hadv : Warmup.advance (⟨1, 100, 100⟩ : Warmup) =
      some (⟨1, 100⟩, ⟨0, 100, 100⟩) := by
    norm_num [Warmup.advance]
  have hrun : runAdv Warmup.advance 1 (⟨1, 100, 100⟩ : Warmup) = [⟨1, 100⟩] := by
    simp [runAdv, hadv]
  refine ⟨hrun, fun h => ?_⟩
  exact h ⟨1, 100⟩ (by rw [hrun]; exact List.mem_singleton_self _) rfl

/-- C1 (amended): for a `Warmup`, `Ramp` or `Cooldown` step with
`duration_s = n`, repeated `advance()` yields exactly `n` items (then
none), each of duration 1 second, with levels linearly interpolated from
the starting level `low` in increments of `(high - low) / n` (decrements
for `Cooldown`, where `low > high` by convention): the `k`-th level is
`low + k * (high - low) / n`, the first is the starting level, the last is
`high - step`; and as long as `low ≠ high` no emitted level equals `high`
(when `low = high` the step is `0` and every emitted level is `high`). -/
theorem claim_C1_amended (n : ℕ) (L H : ℚ) (fuel : ℕ) (h : n ≤ fuel) :
    runAdv Warmup.advance fuel ⟨n, L, H⟩ = rampEmissions n L H ∧
    runAdv Ramp.advance fuel ⟨n, L, H⟩ = rampEmissions n L H ∧
    runAdv Cooldown.advance fuel ⟨n, L, H⟩ = rampEmissions n L H ∧
    (rampEmissions n L H).length = n ∧
    (∀ pd ∈ rampEmissions n L H, pd.duration = 1) ∧
    (0 < n → (rampEmissions n L H).head? = some ⟨1, L⟩) ∧
    (0 < n → (rampEmissions n L H).getLast? = some ⟨1, H - (H - L) / (n : ℚ)⟩) ∧
    (L ≠ H → ∀ pd ∈ rampEmissions n L H, pd.power_level ≠ H) := by
  refine ⟨warmup_runAdv n L H fuel h, ramp_runAdv n L H fuel h,
    cooldown_runAdv n L H fuel h, rampEmissions_length n L H,
    rampEmissions_duration n L H, ?_, rampEmissions_getLast n L H,
    rampEmissions_ne_high n L H⟩
  intro hn
  obtain ⟨m, rfl⟩ := Nat.exists_eq_add_of_lt hn
  simp [rampEmissions, List.range_succ_eq_map]

/-- C1 (witness): scenario S1, `Warmup{duration := 4, low := 0, high :=
100}`: the amended theorem applies and the emissions are `(1 s, 0), (1 s,
25), (1 s, 50), (1 s, 75)` - level `100` is not emitted. -/
theorem intervals_runAdv (ond offd : ℕ) (onp offp : ℚ) (r ci fuel : ℕ)
    (hci : ci % 2 = 0) (h : 2 * r ≤ fuel) :
    runAdv IntervalsT.advance fuel ⟨r, ond, offd, onp, offp, ci⟩ =
      (List.replicate r [⟨ond, onp⟩, ⟨offd, offp⟩]).flatten := by
  induction r generalizing ci fuel with
  | zero =>
    cases fuel with
    | zero => simp [runAdv]
    | succ m => simp [runAdv, IntervalsT.advance]
  | succ r ih =>
    obtain ⟨m, rfl⟩ : ∃ m, fuel = m + 2 := ⟨fuel - 2, by omega⟩
    have h1 : IntervalsT.advance ⟨r + 1, ond, offd, onp, offp, ci⟩ =
        some (⟨ond, onp⟩, ⟨r + 1, ond, offd, onp, offp, ci + 1⟩) := by
      simp [IntervalsT.advance, IntervalsT.is_work_interval, hci]
    have hodd : (ci + 1) % 2 = 1 := by omega
    have h2 : IntervalsT.advance ⟨r + 1, ond, offd, onp, offp, ci + 1⟩ =
        some (⟨offd, offp⟩, ⟨r, ond, offd, onp, offp, ci + 2⟩) := by
      simp [IntervalsT.advance, IntervalsT.is_work_interval, hodd]
    rw [show runAdv IntervalsT.advance (m + 2) ⟨r + 1, ond, offd, onp, offp, ci⟩ =
        ⟨ond, onp⟩ :: ⟨offd, offp⟩ ::
          runAdv IntervalsT.advance m ⟨r, ond, offd, onp, offp, ci + 2⟩ by
      simp [runAdv, h1, h2]]
    rw [ih (ci + 2) m (by omega) (by omega)]
    simp [List.replicate_succ]

theorem replicate_pair_join_length {α : Type} (r : ℕ) (x y : α) :
    ((List.replicate r [x, y]).flatten).length = 2 * r := by
  induction r with
  | zero => simp
  | succ r ih => simp [List.replicate_succ, ih]; omega

/-- C2: an `IntervalsT` step with `repeat = r` and `current_interval = 0`
emits exactly `2·r` items, strictly alternating `(on_duration, on_power)`
then `(off_duration, off_power)`; a call emits the work item exactly when
`current_interval` is even at the time of the call (`is_work_interval`);
after the `2·r`-th item (and immediately when `r = 0`) `advance()` returns
none. -/
theorem claim_C2 (r ond offd : ℕ) (onp offp : ℚ) (fuel : ℕ) (h : 2 * r ≤ fuel) :
    runAdv IntervalsT.advance fuel ⟨r, ond, offd, onp, offp, 0⟩ =
      (List.replicate r [⟨ond, onp⟩, ⟨offd, offp⟩]).flatten ∧
    (runAdv IntervalsT.advance fuel ⟨r, ond, offd, onp, offp, 0⟩).length = 2 * r ∧
    (∀ w : IntervalsT, w.«repeat» ≠ 0 → w.is_work_interval = true →
      w.advance = some (⟨w.on_duration, w.on_power⟩,
        { w with current_interval := w.current_interval + 1 })) ∧
    (∀ w : IntervalsT, w.«repeat» ≠ 0 → w.is_work_interval = false →
      w.advance = some (⟨w.off_duration, w.off_power⟩,
        { w with «repeat» := w.«repeat» - 1,
                 current_interval := w.current_interval + 1 })) ∧
    (∀ w : IntervalsT, w.«repeat» = 0 → w.advance = none) ∧
    (∀ w : IntervalsT, w.is_work_interval = true ↔ w.current_interval % 2 = 0) := by
  refine ⟨intervals_runAdv ond offd onp offp r 0 fuel (by omega) h, ?_, ?_, ?_, ?_, ?_⟩
  · rw [intervals_runAdv ond offd onp offp r 0 fuel (by omega) h]
    exact replicate_pair_join_length r _ _
  · intro w h0 hw
    simp [IntervalsT.advance, h0, hw]
  · intro w h0 hw
    simp [IntervalsT.advance, h0, hw]
  · intro w h0
    simp [IntervalsT.advance, h0]
  · intro w
    simp [IntervalsT.is_work_interval]

/-- C2 (witness): scenario S3, `IntervalsT{repeat := 3, on := 10, off :=
20, on_power := 80, off_power := 150}` emits the six alternating items and
then ends. -/
theorem claim_C2_witness :
    runAdv IntervalsT.advance 6 ⟨3, 10, 20, 80, 150, 0⟩ =
      (List.replicate 3 [⟨10, 80⟩, ⟨20, 150⟩]).flatten ∧
    (List.replicate 3 ([⟨10, 80⟩, ⟨20, 150⟩] : List PowerDuration)).flatten =
      [⟨10, 80⟩, ⟨20, 150⟩, ⟨10, 80⟩, ⟨20, 150⟩, ⟨10, 80⟩, ⟨20, 150⟩] :=
  ⟨(claim_C2 3 10 20 80 150 6 (by norm_num)).1, rfl⟩

/-- C6: `skip()` on a `Warmup`, `Ramp`, `SteadyState`, `Cooldown` or
`FreeRide` step forces the next `advance()` to return none; on an
`IntervalsT` step `skip()` leaves the iterator unchanged, so subsequent
`advance()` calls continue with exactly the remaining half-intervals (at
the engine level the currently-running half-interval is cut short by
re-arming the timer, which is why nothing needs to change here). -/
theorem claim_C6 :
    (∀ w : Warmup, (WorkoutSteps.skip (.warmup w)).advance = none) ∧
    (∀ w : Ramp, (WorkoutSteps.skip (.ramp w)).advance = none) ∧
    (∀ w : SteadyState, (WorkoutSteps.skip (.steadyState w)).advance = none) ∧
    (∀ w : Cooldown, (WorkoutSteps.skip (.cooldown w)).advance = none) ∧
    (∀ w : FreeRide, (WorkoutSteps.skip (.freeRide w)).advance = none) ∧
    (∀ w : IntervalsT, WorkoutSteps.skip (.intervalsT w) = .intervalsT w) ∧
    (∀ (w : IntervalsT) (fuel : ℕ),
      runAdv WorkoutSteps.advance fuel (WorkoutSteps.skip (.intervalsT w)) =
        runAdv WorkoutSteps.advance fuel (.intervalsT w)) := by
  refine ⟨?_, ?_, ?_, ?_, ?_, ?_, ?_⟩
  · intro w; simp [WorkoutSteps.skip, WorkoutSteps.advance, Warmup.advance]
  · intro w; simp [WorkoutSteps.skip, WorkoutSteps.advance, Ramp.advance]
  · intro w; simp [WorkoutSteps.skip, WorkoutSteps.advance, SteadyState.advance]
  · intro w; simp [WorkoutSteps.skip, WorkoutSteps.advance, Cooldown.advance]
  · intro w; simp [WorkoutSteps.skip, WorkoutSteps.advance, FreeRide.advance]
  · intro w; rfl
  · intro w fuel; rfl

theorem claim_C1_witness :
    runAdv Warmup.advance 4 (⟨4, 0, 100⟩ : Warmup) = rampEmissions 4 0 100 ∧
    rampEmissions 4 0 100 = [⟨1, 0⟩, ⟨1, 25⟩, ⟨1, 50⟩, ⟨1, 75⟩] :=
  ⟨(claim_C1_amended 4 0 100 4 (by norm_num)).1, by
    have hr : List.range 4 = [0, 1, 2, 3] := rfl
    simp [rampEmissions, hr]
    norm_num⟩

/-- C4: for a packet whose 13-bit little-endian flags field has bit 0
clear and only table-supported field bits set (bits 8, 9, 10 - the fields
with no table entry - clear), the decoder reads `inst_speed` right after
the flags and then the set-bit fields in ascending bit order at
consecutive cursor positions, consuming exactly `2 + 2 + Σ fieldlen` bytes
(`bikePacketLen`); on the scenario-S6 packet demonstrating the scalings,
`flags = 0x0046, inst_speed = 2500, avg_speed = 2400, inst_cadence = 900,
inst_power = 250` decodes to `25.00, 24.00, 90.0, 250` with all ten bytes
consumed. -/
theorem claim_C4 (data : List ℕ) (flags : ℕ)
    (hflags : readU16le data 0 = some flags)
    (hbit0 : flags &&& 1 = 0)
    (h8 : flags &&& (1 <<< 8) = 0) (h9 : flags &&& (1 <<< 9) = 0)
    (h10 : flags &&& (1 <<< 10) = 0)
    (hlen : bikePacketLen flags ≤ data.length) :
    (∃ bd, handle_bike_data_notification data = .ok (bd, bikePacketLen flags)) ∧
    handle_bike_data_notification s6Packet =
      .ok ({ inst_speed := some 25, avg_speed := some 24, inst_cadence := some 90,
             inst_power := some 250 }, 10) := by
  constructor
  · have hlen4 : 2 + 2 ≤ data.length := by
      have : 2 + 2 ≤ bikePacketLen flags := by unfold bikePacketLen; omega
      omega
    have hv : readU16le data 2 = some (data.getD 2 0 + 256 * data.getD 3 0) := by
      unfold readU16le
      rw [if_pos (by omega)]
    have hsupp : ∀ i ∈ List.range' 1 12, flags &&& (1 <<< i) ≠ 0 →
        i ∈ supportedBikeBits := by
      intro i hi hbit
      fin_cases hi
      all_goals first
        | exact absurd h8 hbit
        | exact absurd h9 hbit
        | exact absurd h10 hbit
        | decide
    have hlen' : 4 + ((List.range' 1 12).map fun i =>
        if flags &&& (1 <<< i) ≠ 0 then bikeFieldLen i else 0).sum ≤ data.length := by
      unfold bikePacketLen at hlen
      omega
    obtain ⟨bd, hb⟩ := bikeDataFold_ok data flags (List.range' 1 12)
      { BikeData.default with
        inst_speed := some (((ScalarType.new.with_multiplier 1).with_dec_exp (-2)).to_scalar
          (data.getD 2 0 + 256 * data.getD 3 0)) } 4 hsupp hlen'
    refine ⟨bd, ?_⟩
    have h1 : handle_bike_data_notification data =
        (List.range' 1 12).foldlM (bikeDataStep data flags)
          ({ BikeData.default with
            inst_speed := some (((ScalarType.new.with_multiplier 1).with_dec_exp (-2)).to_scalar
              (data.getD 2 0 + 256 * data.getD 3 0)) }, 4) := by
      unfold handle_bike_data_notification
      rw [hflags, hv]
      have hbit0' : flags % 2 = 0 := by
        rw [← Nat.and_one_is_mod]
        exact hbit0
      simp [orPanic, exceptBind_ok, hbit0']
    rw [h1, hb]
    have : 4 + ((List.range' 1 12).map fun i =>
        if flags &&& (1 <<< i) ≠ 0 then bikeFieldLen i else 0).sum =
        bikePacketLen flags := by
      unfold bikePacketLen
      omega
    rw [this]
  · have hr : List.range' 1 12 = [1, 2, 3, 4, 5, 6, 7, 8, 9, 10, 11, 12] := rfl
    simp only [handle_bike_data_notification, s6Packet, hr]
    norm_num [readU16le, readI16le, orPanic, exceptBind_ok, bikeDataStep,
      List.foldlM_cons, ScalarType.new, ScalarType.with_multiplier,
      ScalarType.with_dec_exp, ScalarType.to_scalar, BikeData.default,
      (show (70 : ℕ) &&& 1 <<< 1 = 2 by decide),
      (show (70 : ℕ) &&& 1 <<< 2 = 4 by decide),
      (show (70 : ℕ) &&& 1 <<< 3 = 0 by decide),
      (show (70 : ℕ) &&& 1 <<< 4 = 0 by decide),
      (show (70 : ℕ) &&& 1 <<< 5 = 0 by decide),
      (show (70 : ℕ) &&& 1 <<< 6 = 64 by decide),
      (show (70 : ℕ) &&& 1 <<< 7 = 0 by decide),
      (show (70 : ℕ) &&& 1 <<< 8 = 0 by decide),
      (show (70 : ℕ) &&& 1 <<< 9 = 0 by decide),
      (show (70 : ℕ) &&& 1 <<< 10 = 0 by decide),
      (show (70 : ℕ) &&& 1 <<< 11 = 0 by decide),
      (show (70 : ℕ) &&& 1 <<< 12 = 0 by decide)]

/-- C4 (witness): the scenario-S6 packet itself satisfies all hypotheses
(`flags = 0x46`, bit 0 clear, bits 8-10 clear, 10 bytes long) and decodes
with exactly `bikePacketLen 0x46 = 10` bytes consumed. -/
theorem claim_C4_witness :
    bikePacketLen 0x46 = 10 ∧
    (∃ bd, handle_bike_data_notification s6Packet = .ok (bd, bikePacketLen 0x46)) :=
  ⟨by decide,
    (claim_C4 s6Packet 0x46 (by decide) (by decide) (by decide) (by decide)
      (by decide) (by decide)).1⟩

theorem castI16_eq_clamp (z : ℤ) : castI16 z = max (-32768) (min 32767 z) := by
  unfold castI16
  split_ifs <;> omega

/-- C3: the watt value the engine derives for a setpoint - `get_power` in
`common.rs`, and `ZwoWorkout::get_power` which computes the same formula on
the engine state's `ftp_base` - equals `round(F * p)` saturated into the
`i16` range, and for `F = 0` it is `0` for every power level. -/
theorem claim_C3 :
    (∀ f p : ℚ, get_power f p = wattsSpec f p) ∧
    (∀ (z : Zwo.ZwoWorkout) (p : ℚ),
      z.get_power p = wattsSpec z.workout_state.ftp_base p) ∧
    (∀ f p : ℚ, -32768 ≤ get_power f p ∧ get_power f p ≤ 32767) ∧
    (∀ p : ℚ, get_power 0 p = 0) := by
  have heq : ∀ f p : ℚ, get_power f p = wattsSpec f p := by
    intro f p
    rw [get_power, wattsSpec, castI16_eq_clamp]
  refine ⟨heq, fun z p => heq _ _, ?_, ?_⟩
  · intro f p
    rw [get_power, castI16]
    split_ifs <;> omega
  · intro p
    have h0 : rustRound ((0 : ℚ) * p) = 0 := by
      rw [rustRound]
      norm_num
    rw [get_power, h0]
    rfl

/-- C5: `set_power` writes the 3-byte `SetTargetPower` control-point frame
only when the requested power lies in the device-reported range
(`min ≤ p ≤ max` per `Range::in_range`); otherwise it returns an error to
the caller and no bytes reach the peripheral.  -/
theorem claim_C5 (r : Range) (p : ℤ) :
    (r.in_range p = false → set_power r p = .error "power outside valid range") ∧
    (r.in_range p = true → set_power r p = .ok (setTargetPowerOpCode :: writeI16le p)) ∧
    (r.in_range p = true ↔ r.min ≤ p ∧ p ≤ r.max) := by
  refine ⟨?_, ?_, ?_⟩
  · intro h
    simp [set_power, h]
  · intro h
    simp [set_power, h]
  · simp [Range.in_range]

/-- C5 (witness): scenario S5, `SetTargetPower(350)` against the range
`{min := 0, max := 300, step := 1}` is rejected locally with no frame
produced. -/
theorem claim_C5_witness :
    Range.in_range ⟨0, 300, 1⟩ 350 = false ∧
    set_power ⟨0, 300, 1⟩ 350 = .error "power outside valid range" :=
  ⟨by decide, (claim_C5 ⟨0, 300, 1⟩ 350).1 (by decide)⟩

/-- C7 (counterexample): the claim quantifies over all values of `elapsed`
and `duration`, but `handle_skip_step` subtracts with `saturating_sub`: in
a state whose remaining step time is `Δ = 10` while
`total_workout_duration = 5`, the update clamps the total at `0`, a
decrease of `5`, not `Δ = 10`. -/
theorem claim_C7_counterexample :
    skipDemoState.current_step.duration - skipDemoState.current_step.elapsed = 10 ∧
    skipDemoState.current_interval = none ∧
    skipDemoState.total_workout_duration = 5 ∧
    skipDemoState.handle_skip_step.total_workout_duration = 0 ∧
    skipDemoState.total_workout_duration -
        skipDemoState.handle_skip_step.total_workout_duration ≠ 10 := by
  refine ⟨rfl, rfl, rfl, rfl, ?_⟩
  have h : skipDemoState.total_workout_duration -
      skipDemoState.handle_skip_step.total_workout_duration = 5 := rfl
  omega

/-- C7 (amended): with `Δ` the *saturating* remaining time of the current
half-interval (when interval info is present) or of the current step,
`handle_skip_step` sets `total_workout_duration` to
`total_workout_duration - Δ` (saturating); in particular it decreases it by
exactly `Δ` whenever `Δ ≤ total_workout_duration`. -/
theorem claim_C7_amended (s : WorkoutState) :
    s.handle_skip_step.total_workout_duration =
      s.total_workout_duration - skip_remaining s ∧
    (skip_remaining s ≤ s.total_workout_duration →
      s.total_workout_duration - s.handle_skip_step.total_workout_duration =
        skip_remaining s) := by
  have h1 : s.handle_skip_step.total_workout_duration =
      s.total_workout_duration - skip_remaining s := by
    cases h : s.current_interval <;>
      simp [WorkoutState.handle_skip_step, skip_remaining, h]
  refine ⟨h1, fun hle => ?_⟩
  rw [h1]
  omega

/-- C7 (witness): at `skipDemoState2` the remaining time is `Δ = 10 - 3 =
7 ≤ 100`, and skipping decreases the total by exactly `7`. -/
theorem claim_C7_witness :
    skip_remaining skipDemoState2 = 7 ∧
    skipDemoState2.total_workout_duration -
      skipDemoState2.handle_skip_step.total_workout_duration =
        skip_remaining skipDemoState2 :=
  ⟨rfl, (claim_C7_amended skipDemoState2).2 (by norm_num [skip_remaining, skipDemoState2, skipDemoState])⟩

/-- C10: `handle_skip_step` is a frame update: it can change only
`total_workout_duration`; `total_steps`, `current_step_number`,
`next_step`, `current_power_set`, `ftp_base`, the whole `current_step`
record (step, duration, elapsed, started), `current_interval`,
`workout_elapsed` and `workout_started` are all unchanged. -/
theorem claim_C10 (s : WorkoutState) :
    s.handle_skip_step.total_steps = s.total_steps ∧
    s.handle_skip_step.current_step_number = s.current_step_number ∧
    s.handle_skip_step.next_step = s.next_step ∧
    s.handle_skip_step.current_power_set = s.current_power_set ∧
    s.handle_skip_step.ftp_base = s.ftp_base ∧
    s.handle_skip_step.current_step = s.current_step ∧
    s.handle_skip_step.current_interval = s.current_interval ∧
    s.handle_skip_step.workout_elapsed = s.workout_elapsed ∧
    s.handle_skip_step.workout_started = s.workout_started :=
  ⟨rfl, rfl, rfl, rfl, rfl, rfl, rfl, rfl, rfl⟩

theorem exceptBind_error {ε α β : Type} (e : ε) (f : α → Except ε β) :
    ((Except.error e : Except ε α) >>= f) = .error e := rfl

/-- C8 (code evaluated at the failing input): the claim matches the spec's
stated pause semantics, but `pause()` merely takes and aborts the pending
timer handle, leaving `pending` empty; `poll_next`'s no-pending branch then
advances the workout and immediately returns a `SetTargetPower` command.
At a paused engine holding a fresh 10 s SteadyState (level 1/2, FTP 200),
the very next poll - with no timer fired, no resume and no skip - emits
`SetTargetPower{100}` instead of staying silent. -/
theorem claim_C8 :
    (Zwo.ZwoWorkout.pause pauseDemoZwo).pending = false ∧
    (∃ z', Zwo.ZwoWorkout.poll_next (Zwo.ZwoWorkout.pause pauseDemoZwo) false =
      .ok (.ready (some (.setTargetPower 100)), z')) := by
  refine ⟨rfl, ?_⟩
  have hadv : WorkoutSteps.advance (.steadyState ⟨10, 2⁻¹⟩) =
      some (⟨10, 2⁻¹⟩, .steadyState ⟨0, 2⁻¹⟩) := by
    simp [WorkoutSteps.advance, SteadyState.advance]
  have hgp : get_power 200 (2⁻¹ : ℚ) = 100 := by
    unfold get_power rustRound castI16
    norm_num
  exact ⟨_, by
    simp [Zwo.ZwoWorkout.poll_next, Zwo.ZwoWorkout.pause, pauseDemoZwo,
      Zwo.ZwoWorkout.advance_workout, Zwo.ZwoWorkout.get_power, hadv, hgp,
      exceptBind_ok]
    rfl⟩

/-- C9 (counterexample): a decode failure does terminate the notification
pump.  A control-point indication with leading opcode `0x00` makes
`handle_control_point_notification` panic (`assert_eq!(op_code, 0x80)`),
killing the pump task, so a following well-formed indication - which alone
would be decoded and broadcast - is never processed. -/
theorem claim_C9_counterexample :
    handle_notifications [badControlPointNotification, goodControlPointNotification] =
      .error "assertion failed: op_code == 0x80" ∧
    handle_notifications [goodControlPointNotification] =
      .ok [.controlPointResponse ⟨0x05, 0x01⟩] :=
  ⟨rfl, rfl⟩

/-- C9 (amended): only a notification whose characteristic UUID is not one
of the four dispatched ones is logged and skipped with processing
continuing (training-status payloads are likewise only traced); a payload
that fails to decode on a recognized characteristic - an indication whose
leading opcode is not `0x80`, an unknown machine-status or control-point
opcode or status, or an indoor-bike-data packet with bit 0 or an
unsupported flag bit set - panics, and the panic terminates the
notification pump task: no subsequent notification is processed. -/
theorem claim_C9_amended :
    (∀ (u : ℕ) (v : List ℕ) (rest : List ValueNotification),
      handle_notifications (⟨.unknown u, v⟩ :: rest) = handle_notifications rest) ∧
    (∀ (v : List ℕ) (rest : List ValueNotification),
      handle_notifications (⟨.trainingStatus, v⟩ :: rest) = handle_notifications rest) ∧
    (∀ (v : List ℕ) (e : String) (rest : List ValueNotification),
      handle_control_point_notification v = .error e →
      handle_notifications (⟨.controlPoint, v⟩ :: rest) = .error e) ∧
    (∀ (v : List ℕ) (e : String) (rest : List ValueNotification),
      handle_machine_status_notification v = .error e →
      handle_notifications (⟨.machineStatus, v⟩ :: rest) = .error e) ∧
    (∀ (v : List ℕ) (e : String) (rest : List ValueNotification),
      handle_bike_data_notification v = .error e →
      handle_notifications (⟨.indoorBikeData, v⟩ :: rest) = .error e) := by
  refine ⟨fun u v rest => rfl, fun v rest => rfl, ?_, ?_, ?_⟩
  · intro v e rest h
    simp [handle_notifications, h, exceptBind_error]
  · intro v e rest h
    simp [handle_notifications, h, exceptBind_error]
  · intro v e rest h
    simp [handle_notifications, h, exceptBind_error]

/-- C9 (witness): the bad indication `[0x00, 0x05, 0x01]` decodes to the
assertion panic, and by the amended theorem the pump run containing it
terminates with that panic. -/
theorem claim_C9_witness :
    handle_control_point_notification [0x00, 0x05, 0x01] =
      .error "assertion failed: op_code == 0x80" ∧
    handle_notifications [⟨.controlPoint, [0x00, 0x05, 0x01]⟩] =
      .error "assertion failed: op_code == 0x80" :=
  ⟨rfl, claim_C9_amended.2.2.1 [0x00, 0x05, 0x01]
    "assertion failed: op_code == 0x80" [] rfl⟩

end Velomania
